import Mathlib

/-!
# play_mp3_control: the embedded-asset reader and the touch control loop

A shallow embedding of `examples/get-started/play_mp3_control/main/play_mp3_control_example.c`
(`mp3_music_read_cb` and `app_main`) and of the hook contract documented in
`components/audio_stream/include/http_stream.h`.

Conventions.
* `int` is the 32-bit two's complement integer of the target; values are `Int` and every
  arithmetic result that is stored in an `int` goes through `wrap_int`.
* Memory regions (`buf`, the embedded asset) are lists of bytes; `memcpy` is defined only
  when both regions hold the bytes it touches, and yields `none` otherwise.
* Calls into the framework are recorded, in program order, as a list of `Call`.
  Logging macros (`ESP_LOGx`, `esp_log_level_set`) are not recorded.
* Constants whose declarations live in headers that are not part of the sources at hand are
  fields of `Env`.
-/

namespace EspAdf

/-! ## Machine integers and memory -/

abbrev Byte := Fin 256

def INT_MAX : Int := 2147483647

def INT_MIN : Int := -2147483648

/-- Value stored in a 32-bit `int` when the mathematical result is `x`. -/
def wrap_int (x : Int) : Int := (x + 2147483648) % 4294967296 - 2147483648

/-- Conversion of an `int` to `size_t` (32 bits, unsigned). -/
def to_size_t (x : Int) : Nat := (x % 4294967296).toNat

/-- Model of `memcpy(dst, src + off, n)`: the first `n` bytes of `dst` are replaced by the bytes of
`src` at `off ..`; undefined (`none`) when the source or the destination region does not hold
the bytes touched. -/
def memcpy (dst : List Byte) (src : List Byte) (off : Int) (n : Int) : Option (List Byte) :=
  if 0 ≤ off ∧ off.toNat + to_size_t n ≤ src.length ∧ to_size_t n ≤ dst.length then
    some ((src.drop off.toNat).take (to_size_t n) ++ dst.drop (to_size_t n))
  else
    none

/-! ## Constants and handles taken from headers outside the sources -/

/-- Handles are pointer values. -/
abbrev Handle := Nat

/-- The constants and the handles that `app_main` obtains from the framework. -/
structure Env where
  AEL_IO_DONE : Int
  AUDIO_ELEMENT_TYPE_ELEMENT : Int
  AEL_MSG_CMD_REPORT_MUSIC_INFO : Int
  PERIPH_ID_TOUCH : Int
  PERIPH_TOUCH_TAP : Int
  mp3_decoder : Handle
  i2s_stream_writer : Handle
  touch_periph : Handle
  deriving DecidableEq, Repr

/-! ## The read callback -/

/-- Outcome of one call of `mp3_music_read_cb`: the returned `int`, the buffer and the
global `adf_music_mp3_pos` after the call. -/
structure ReadResult where
  ret : Int
  buf : List Byte
  pos : Int
  deriving DecidableEq, Repr

/-- The callback `mp3_music_read_cb(el, buf, len, wait_time, ctx)`; `asset` is the region
`adf_music_mp3_start .. adf_music_mp3_end`, `adf_music_mp3_pos` the global read position.
The arguments `el`, `wait_time` and `ctx` are not used by the body. -/
def mp3_music_read_cb (c : Env) (asset : List Byte) (adf_music_mp3_pos : Int)
    (buf : List Byte) (len : Int) : Option ReadResult :=
  let read_size : Int := wrap_int ((asset.length : Int) - adf_music_mp3_pos)
  if read_size = 0 then
    some ⟨c.AEL_IO_DONE, buf, adf_music_mp3_pos⟩
  else
    let read_size : Int := if len < read_size then len else read_size
    match memcpy buf asset adf_music_mp3_pos read_size with
    | none => none
    | some buf1 => some ⟨read_size, buf1, wrap_int (adf_music_mp3_pos + read_size)⟩

/-- The reference reader, following the wording of the contract: at the end of the asset it
reports `AEL_IO_DONE` and changes nothing; otherwise it delivers `n = min(len, S - p)` bytes,
the asset bytes `p .. p+n-1`, into the first `n` bytes of `buf` and advances the position by `n`. -/
def reference_reader (c : Env) (asset : List Byte) (p : Int) (buf : List Byte) (len : Int) :
    ReadResult :=
  if p = asset.length then
    ⟨c.AEL_IO_DONE, buf, p⟩
  else
    let n : Int := min len ((asset.length : Int) - p)
    ⟨n, (asset.drop p.toNat).take n.toNat ++ buf.drop n.toNat, p + n⟩

/-- A sequence of calls of the read callback, each with its own buffer and length, threading
the global position; the outcomes are collected in call order. -/
def run_reads (c : Env) (asset : List Byte) : Int → List (List Byte × Int) → Option (List ReadResult)
  | _, [] => some []
  | pos, (buf, len) :: rest =>
    match mp3_music_read_cb c asset pos buf len with
    | none => none
    | some r =>
      match run_reads c asset r.pos rest with
      | none => none
      | some rs => some (r :: rs)

/-- The position after a sequence of calls (the position before them when there is none). -/
def final_pos : Int → List ReadResult → Int
  | pos, [] => pos
  | _, r :: rs => final_pos r.pos rs

/-- The bytes a call hands to its caller: the first `ret` bytes of the buffer when `ret`
is a positive count, nothing otherwise. -/
def chunk (r : ReadResult) : List Byte := r.buf.take r.ret.toNat

/-- An instance of the constants and handles, for evaluating the model on concrete inputs. -/
def sample_env : Env :=
  { AEL_IO_DONE := -2
    AUDIO_ELEMENT_TYPE_ELEMENT := 131072
    AEL_MSG_CMD_REPORT_MUSIC_INFO := 3
    PERIPH_ID_TOUCH := 4099
    PERIPH_TOUCH_TAP := 1
    mp3_decoder := 10
    i2s_stream_writer := 11
    touch_periph := 12 }

/-! ## The control loop of `app_main` -/

/-- The success code `ESP_OK` of ESP-IDF. -/
def ESP_OK : Int := 0

/-- The enumerator `TOUCH_PAD_NUM4` of ESP-IDF: pad 4. -/
def TOUCH_PAD_NUM4 : Int := 4

/-- The enumerator `TOUCH_PAD_NUM7` of ESP-IDF: pad 7. -/
def TOUCH_PAD_NUM7 : Int := 7

/-- The enumerator `TOUCH_PAD_NUM8` of ESP-IDF: pad 8. -/
def TOUCH_PAD_NUM8 : Int := 8

/-- The enumerator `TOUCH_PAD_NUM9` of ESP-IDF: pad 9. -/
def TOUCH_PAD_NUM9 : Int := 9

def LYRAT_TOUCH_SET : Int := TOUCH_PAD_NUM9

def LYRAT_TOUCH_PLAY : Int := TOUCH_PAD_NUM8

def LYRAT_TOUCH_VOLUP : Int := TOUCH_PAD_NUM7

def LYRAT_TOUCH_VOLDWN : Int := TOUCH_PAD_NUM4

/-- Modelled from the spec: the element states `UNINITIALIZED, INIT, RUNNING, PAUSED, STOPPING,
FINISHED, ERROR` of the data model (the enum is declared in `audio_element.h`, which is not
among the sources); the four states named in the `switch` keep the names used there. -/
inductive audio_element_state_t where
  | AEL_STATE_UNINITIALIZED
  | AEL_STATE_INIT
  | AEL_STATE_RUNNING
  | AEL_STATE_PAUSED
  | AEL_STATE_STOPPING
  | AEL_STATE_FINISHED
  | AEL_STATE_ERROR
  deriving DecidableEq, Repr

/-- Modelled from the spec: the metadata record (sample rate, bit depth, channel count,
total and consumed byte counts); `audio_element_info_t` is declared in `audio_element.h`,
which is not among the sources. -/
structure audio_element_info_t where
  sample_rates : Int
  bits : Int
  channels : Int
  total_bytes : Int
  byte_pos : Int
  deriving DecidableEq, Repr

/-- The fields of `audio_event_iface_msg_t` that `app_main` reads; `data` is the value of
`(int) msg.data`. -/
structure audio_event_iface_msg_t where
  cmd : Int
  data : Int
  source : Handle
  source_type : Int
  deriving DecidableEq, Repr

/-- The framework calls made by `app_main`, with the arguments that vary. -/
inductive Call where
  | audio_hal_init
  | audio_hal_ctrl_codec
  | audio_hal_get_volume
  | audio_pipeline_init
  | mem_assert
  | mp3_decoder_init
  | audio_element_set_read_cb (el : Handle)
  | i2s_stream_init
  | audio_pipeline_register (el : Handle)
  | audio_pipeline_link
  | esp_periph_init
  | periph_touch_init
  | esp_periph_start (periph : Handle)
  | audio_event_iface_init
  | audio_pipeline_set_listener
  | esp_periph_get_event_iface
  | audio_event_iface_set_listener
  | audio_event_iface_listen
  | audio_element_getinfo (el : Handle)
  | audio_element_setinfo (el : Handle) (info : audio_element_info_t)
  | i2s_stream_set_clk (el : Handle) (rate : Int) (bits : Int) (ch : Int)
  | audio_element_get_state (el : Handle)
  | audio_pipeline_run
  | audio_pipeline_pause
  | audio_pipeline_resume
  | audio_hal_set_volume (volume : Int)
  | audio_pipeline_terminate
  | audio_pipeline_remove_listener
  | audio_event_iface_destroy
  | audio_pipeline_deinit
  | audio_element_deinit (el : Handle)
  deriving DecidableEq, Repr

/-- The variables of the program that the loop body reads and writes. -/
structure AppState where
  adf_music_mp3_pos : Int
  player_volume : Int
  deriving DecidableEq, Repr

/-- What one iteration of the loop receives from outside: the result of
`audio_event_iface_listen` (`ret` and the message it stored), the state that
`audio_element_get_state(i2s_stream_writer)` reports, the record that
`audio_element_getinfo(mp3_decoder, &music_info)` leaves in `music_info`, and the value of the
global `adf_music_mp3_pos`, which the decoder task advances between iterations. -/
structure LoopInput where
  ret : Int
  msg : audio_event_iface_msg_t
  el_state : audio_element_state_t
  music_info : audio_element_info_t
  adf_music_mp3_pos : Int
  deriving DecidableEq, Repr

/-- Result of one iteration: the variables afterwards, the calls made, and whether the
iteration left the loop through `break`. -/
structure LoopStep where
  st : AppState
  calls : List Call
  exits : Bool
  deriving DecidableEq, Repr

/-- One iteration of `while (1) { ... }` in `app_main`. -/
def loop_body (c : Env) (st : AppState) (i : LoopInput) : LoopStep :=
  if i.ret ≠ ESP_OK then
    ⟨st, [Call.audio_event_iface_listen], false⟩
  else if i.msg.source_type = c.AUDIO_ELEMENT_TYPE_ELEMENT ∧ i.msg.source = c.mp3_decoder
      ∧ i.msg.cmd = c.AEL_MSG_CMD_REPORT_MUSIC_INFO then
    ⟨st, [Call.audio_event_iface_listen,
          Call.audio_element_getinfo c.mp3_decoder,
          Call.audio_element_setinfo c.i2s_stream_writer i.music_info,
          Call.i2s_stream_set_clk c.i2s_stream_writer i.music_info.sample_rates
            i.music_info.bits i.music_info.channels], false⟩
  else if i.msg.source_type = c.PERIPH_ID_TOUCH ∧ i.msg.cmd = c.PERIPH_TOUCH_TAP
      ∧ i.msg.source = c.touch_periph then
    if i.msg.data = LYRAT_TOUCH_PLAY then
      match i.el_state with
      | audio_element_state_t.AEL_STATE_INIT =>
        ⟨st, [Call.audio_event_iface_listen, Call.audio_element_get_state c.i2s_stream_writer,
              Call.audio_pipeline_run], false⟩
      | audio_element_state_t.AEL_STATE_RUNNING =>
        ⟨st, [Call.audio_event_iface_listen, Call.audio_element_get_state c.i2s_stream_writer,
              Call.audio_pipeline_pause], false⟩
      | audio_element_state_t.AEL_STATE_PAUSED =>
        ⟨st, [Call.audio_event_iface_listen, Call.audio_element_get_state c.i2s_stream_writer,
              Call.audio_pipeline_resume], false⟩
      | audio_element_state_t.AEL_STATE_FINISHED =>
        ⟨{ st with adf_music_mp3_pos := 0 },
         [Call.audio_event_iface_listen, Call.audio_element_get_state c.i2s_stream_writer,
          Call.audio_pipeline_resume], false⟩
      | _ =>
        ⟨st, [Call.audio_event_iface_listen, Call.audio_element_get_state c.i2s_stream_writer],
         false⟩
    else if i.msg.data = LYRAT_TOUCH_SET then
      ⟨st, [Call.audio_event_iface_listen], true⟩
    else if i.msg.data = LYRAT_TOUCH_VOLUP then
      let player_volume : Int := wrap_int (st.player_volume + 10)
      let player_volume : Int := if player_volume > 100 then 100 else player_volume
      ⟨{ st with player_volume := player_volume },
       [Call.audio_event_iface_listen, Call.audio_hal_set_volume player_volume], false⟩
    else if i.msg.data = LYRAT_TOUCH_VOLDWN then
      let player_volume : Int := wrap_int (st.player_volume - 10)
      let player_volume : Int := if player_volume < 0 then 0 else player_volume
      ⟨{ st with player_volume := player_volume },
       [Call.audio_event_iface_listen, Call.audio_hal_set_volume player_volume], false⟩
    else
      ⟨st, [Call.audio_event_iface_listen], false⟩
  else
    ⟨st, [Call.audio_event_iface_listen], false⟩

/-- Result of running the loop on the events received so far. -/
structure LoopRun where
  player_volume : Int
  calls : List Call
  exited : Bool
  deriving DecidableEq, Repr

/-- The loop `while (1)` on a finite sequence of received events: iterations are run in order
until one of them breaks; when the events run out the loop is still blocked in
`audio_event_iface_listen` (`exited = false`). `player_volume` is local to `app_main` and is
threaded through; the global `adf_music_mp3_pos` is shared with the decoder task, so each
iteration starts from the value that comes with its event. -/
def control_loop (c : Env) (player_volume : Int) : List LoopInput → LoopRun
  | [] => ⟨player_volume, [], false⟩
  | i :: rest =>
    let s := loop_body c ⟨i.adf_music_mp3_pos, player_volume⟩ i
    if s.exits then
      ⟨s.st.player_volume, s.calls, true⟩
    else
      let r := control_loop c s.st.player_volume rest
      ⟨r.player_volume, s.calls ++ r.calls, r.exited⟩

/-- The calls of `app_main` up to and including `mem_assert(pipeline)`. -/
def setup_head : List Call :=
  [Call.audio_hal_init, Call.audio_hal_ctrl_codec, Call.audio_hal_get_volume,
   Call.audio_pipeline_init, Call.mem_assert]

/-- The calls of `app_main` between `mem_assert(pipeline)` and the loop. -/
def setup_tail (c : Env) : List Call :=
  [Call.mp3_decoder_init, Call.audio_element_set_read_cb c.mp3_decoder, Call.i2s_stream_init,
   Call.audio_pipeline_register c.mp3_decoder, Call.audio_pipeline_register c.i2s_stream_writer,
   Call.audio_pipeline_link, Call.esp_periph_init, Call.periph_touch_init,
   Call.esp_periph_start c.touch_periph, Call.audio_event_iface_init,
   Call.audio_pipeline_set_listener, Call.esp_periph_get_event_iface,
   Call.audio_event_iface_set_listener]

/-- The calls of `app_main` after the loop, in program order. -/
def teardown (c : Env) : List Call :=
  [Call.audio_pipeline_terminate, Call.audio_pipeline_remove_listener,
   Call.audio_event_iface_destroy, Call.audio_pipeline_deinit,
   Call.audio_element_deinit c.i2s_stream_writer, Call.audio_element_deinit c.mp3_decoder]

/-- What `app_main` receives before the loop: whether `mem_assert(pipeline)` lets the program
go on (the macro is defined in a header outside the sources), and the value that
`audio_hal_get_volume` leaves in `player_volume`. -/
structure Boot where
  mem_assert_passes : Bool
  player_volume : Int
  deriving DecidableEq, Repr

/-- The calls made by `app_main`, in order, when it has received the events `inputs`. -/
def app_main (c : Env) (b : Boot) (inputs : List LoopInput) : List Call :=
  if b.mem_assert_passes then
    let r := control_loop c b.player_volume inputs
    setup_head ++ setup_tail c ++ r.calls ++ (if r.exited then teardown c else [])
  else
    setup_head

/-- The teardown calls: terminate, remove the listener, destroy the event interface, and the
deinits. -/
def is_teardown : Call → Bool
  | Call.audio_pipeline_terminate => true
  | Call.audio_pipeline_remove_listener => true
  | Call.audio_event_iface_destroy => true
  | Call.audio_pipeline_deinit => true
  | Call.audio_element_deinit _ => true
  | _ => false

/-- Calls on the `audio_pipeline_*` interface. -/
def is_pipeline_call : Call → Bool
  | Call.audio_pipeline_init => true
  | Call.audio_pipeline_register _ => true
  | Call.audio_pipeline_link => true
  | Call.audio_pipeline_set_listener => true
  | Call.audio_pipeline_run => true
  | Call.audio_pipeline_pause => true
  | Call.audio_pipeline_resume => true
  | Call.audio_pipeline_terminate => true
  | Call.audio_pipeline_remove_listener => true
  | Call.audio_pipeline_deinit => true
  | _ => false

/-- Calls that change the volume. -/
def is_volume_change : Call → Bool
  | Call.audio_hal_set_volume _ => true
  | _ => false

/-- Calls that change an element's info record or the i2s clock. -/
def is_info_or_clk : Call → Bool
  | Call.audio_element_setinfo _ _ => true
  | Call.i2s_stream_set_clk _ _ _ _ => true
  | _ => false

/-- The volume a call passes to `audio_hal_set_volume`, if it is such a call. -/
def volume_of : Call → Option Int
  | Call.audio_hal_set_volume v => some v
  | _ => none

/-- The volumes passed to `audio_hal_set_volume`, in call order. -/
def volumes_set (calls : List Call) : List Int := calls.filterMap volume_of

/-- The message of the music-info branch: an element message from the mp3 decoder with command
`AEL_MSG_CMD_REPORT_MUSIC_INFO`. -/
def is_music_info (c : Env) (m : audio_event_iface_msg_t) : Prop :=
  m.source_type = c.AUDIO_ELEMENT_TYPE_ELEMENT ∧ m.source = c.mp3_decoder
    ∧ m.cmd = c.AEL_MSG_CMD_REPORT_MUSIC_INFO

instance (c : Env) (m : audio_event_iface_msg_t) : Decidable (is_music_info c m) := by
  unfold is_music_info
  infer_instance

/-- A tap reported by the registered touch peripheral. -/
def is_touch_tap (c : Env) (m : audio_event_iface_msg_t) : Prop :=
  m.source_type = c.PERIPH_ID_TOUCH ∧ m.cmd = c.PERIPH_TOUCH_TAP ∧ m.source = c.touch_periph

instance (c : Env) (m : audio_event_iface_msg_t) : Decidable (is_touch_tap c m) := by
  unfold is_touch_tap
  infer_instance

/-! ## The HTTP stream hook -/

/-- The hook points of `http_stream.h`. -/
inductive http_stream_event_id_t where
  | HTTP_STREAM_PRE_REQUEST
  | HTTP_STREAM_ON_REQUEST
  | HTTP_STREAM_ON_RESPONSE
  | HTTP_STREAM_POST_REQUEST
  | HTTP_STREAM_FINISH_REQUEST
  deriving DecidableEq, Repr

/-- The enumerators start at `0x01` and count up. -/
def http_stream_event_id_t.val : http_stream_event_id_t → Int
  | HTTP_STREAM_PRE_REQUEST => 1
  | HTTP_STREAM_ON_REQUEST => 2
  | HTTP_STREAM_ON_RESPONSE => 3
  | HTTP_STREAM_POST_REQUEST => 4
  | HTTP_STREAM_FINISH_REQUEST => 5

/-- The stream event message handed to the hook. -/
structure http_stream_event_msg_t where
  event_id : http_stream_event_id_t
  http_client : Handle
  buffer : List Byte
  buffer_len : Int
  user_data : Handle
  deriving DecidableEq, Repr

/-- The hook function type `int (*)(http_stream_event_msg_t *msg)`. -/
abbrev http_stream_event_handle_t := http_stream_event_msg_t → Int

/-- What the stream does around a hook call. -/
inductive HttpAction where
  | stop_http_client
  | send_post_field
  | read_from_server
  deriving DecidableEq, Repr

/-- How the element's current operation comes out of a hook point. -/
inductive HookResult where
  | IO_FAIL
  | proceeds
  deriving DecidableEq, Repr

/-- Outcome of a hook point. -/
structure HookStep where
  result : HookResult
  actions : List HttpAction
  deriving DecidableEq, Repr

/-- Modelled from the spec: the default action of each hook point (`http_stream.c` is not among
the sources): at the request phase the stream sends the `post_field` payload, at the response
phase it reads from the server, the other phases have none. -/
def http_stream_default_action : http_stream_event_id_t → List HttpAction
  | http_stream_event_id_t.HTTP_STREAM_ON_REQUEST => [HttpAction.send_post_field]
  | http_stream_event_id_t.HTTP_STREAM_ON_RESPONSE => [HttpAction.read_from_server]
  | _ => []

/-- Modelled from the spec: the stream's treatment of the handler's return value at a hook
point (`http_stream.c` is not among the sources): negative aborts the current operation, which
surfaces as `IO_FAIL`, and stops the HTTP client; positive skips the default action of the
phase; zero proceeds with the default action. -/
def http_stream_hook_point (event_handle : http_stream_event_handle_t)
    (msg : http_stream_event_msg_t) : HookStep :=
  let r := event_handle msg
  if r < 0 then
    ⟨HookResult.IO_FAIL, [HttpAction.stop_http_client]⟩
  else if r > 0 then
    ⟨HookResult.proceeds, []⟩
  else
    ⟨HookResult.proceeds, http_stream_default_action msg.event_id⟩

/-! ## Reader lemmas -/

theorem wrap_int_of_range (x : Int) (h0 : -2147483648 ≤ x) (h1 : x ≤ 2147483647) :
    wrap_int x = x := by
  unfold wrap_int
  omega

theorem to_size_t_of_nonneg (x : Int) (h0 : 0 ≤ x) (h1 : x ≤ 2147483647) :
    to_size_t x = x.toNat := by
  unfold to_size_t
  congr 1
  omega

theorem read_cb_eq_reference (c : Env) (asset : List Byte) (p : Int) (buf : List Byte) (len : Int)
    (hS : (asset.length : Int) ≤ INT_MAX) (hp0 : 0 ≤ p) (hpS : p ≤ asset.length)
    (hlen : 0 ≤ len) (hbuf : len ≤ buf.length) :
    mp3_music_read_cb c asset p buf len = some (reference_reader c asset p buf len) := by
  unfold INT_MAX at hS
  unfold mp3_music_read_cb reference_reader
  simp only
  rw [wrap_int_of_range _ (by omega) (by omega)]
  by_cases hend : p = asset.length
  · simp [hend]
  · have hne : (asset.length : Int) - p ≠ 0 := by omega
    rw [if_neg hne, if_neg hend]
    have hmin : (if len < (asset.length : Int) - p then len else (asset.length : Int) - p)
        = min len ((asset.length : Int) - p) := by
      rcases Int.lt_or_le len ((asset.length : Int) - p) with h | h
      · rw [if_pos h, min_eq_left (le_of_lt h)]
      · rw [if_neg (by omega), min_eq_right h]
    rw [hmin]
    have hn0 : 0 ≤ min len ((asset.length : Int) - p) := le_min hlen (by omega)
    have hn1 : min len ((asset.length : Int) - p) ≤ (asset.length : Int) - p := min_le_right _ _
    have hn2 : min len ((asset.length : Int) - p) ≤ len := min_le_left _ _
    rw [wrap_int_of_range _ (by omega) (by omega)]
    unfold memcpy
    rw [to_size_t_of_nonneg _ hn0 (by omega)]
    have hc : 0 ≤ p ∧ p.toNat + (min len ((asset.length : Int) - p)).toNat ≤ asset.length ∧
        (min len ((asset.length : Int) - p)).toNat ≤ buf.length := by
      refine ⟨hp0, ?_, ?_⟩ <;> omega
    rw [if_pos hc]

theorem take_patch (a b : List Byte) (n : Nat) (h : n ≤ a.length) :
    (a.take n ++ b.drop n).take n = a.take n := by
  have hl : (a.take n).length = n := by simp [h]
  exact List.take_left' hl

theorem drop_patch (a b : List Byte) (n : Nat) (h : n ≤ a.length) :
    (a.take n ++ b.drop n).drop n = b.drop n := by
  have hl : (a.take n).length = n := by simp [h]
  exact List.drop_left' hl

theorem take_drop_glue (a : List Byte) (p q f : Nat) (hpq : p ≤ q) (hqf : q ≤ f) :
    (a.drop p).take (q - p) ++ (a.drop q).take (f - q) = (a.drop p).take (f - p) := by
  have h1 : a.drop q = (a.drop p).drop (q - p) := by
    rw [List.drop_drop]
    congr 1
    omega
  have h2 : f - p = (q - p) + (f - q) := by omega
  rw [h1, h2, List.take_add]

/-- One call from a position inside the asset succeeds, moves the position forward inside the
asset, and hands over the asset bytes between the old and the new position. -/
theorem read_cb_step (c : Env) (asset : List Byte) (p : Int) (buf : List Byte) (len : Int)
    (hS : (asset.length : Int) ≤ INT_MAX) (hp0 : 0 ≤ p) (hpS : p ≤ asset.length)
    (hlen : 0 ≤ len) (hbuf : len ≤ buf.length) :
    ∃ r, mp3_music_read_cb c asset p buf len = some r ∧ p ≤ r.pos ∧ r.pos ≤ asset.length ∧
      (c.AEL_IO_DONE ≤ 0 → chunk r = (asset.drop p.toNat).take (r.pos.toNat - p.toNat)) := by
  refine ⟨_, read_cb_eq_reference c asset p buf len hS hp0 hpS hlen hbuf, ?_⟩
  unfold reference_reader chunk
  by_cases hend : p = asset.length
  · rw [if_pos hend]
    refine ⟨le_refl _, hpS, ?_⟩
    intro hD
    have h0 : c.AEL_IO_DONE.toNat = 0 := by omega
    simp [h0]
  · rw [if_neg hend]
    simp only
    have hn0 : 0 ≤ min len ((asset.length : Int) - p) := le_min hlen (by omega)
    have hn1 : min len ((asset.length : Int) - p) ≤ (asset.length : Int) - p := min_le_right _ _
    have hlen2 : (min len ((asset.length : Int) - p)).toNat ≤ (asset.drop p.toNat).length := by
      rw [List.length_drop]
      omega
    refine ⟨by omega, by omega, ?_⟩
    intro _
    rw [take_patch _ _ _ hlen2]
    congr 1
    omega

theorem run_reads_cons (c : Env) (asset : List Byte) (pos : Int) (buf : List Byte) (len : Int)
    (rest : List (List Byte × Int)) (r : ReadResult) (rs : List ReadResult)
    (h1 : mp3_music_read_cb c asset pos buf len = some r)
    (h2 : run_reads c asset r.pos rest = some rs) :
    run_reads c asset pos ((buf, len) :: rest) = some (r :: rs) := by
  rw [run_reads, h1]
  simp only
  rw [h2]

/-- A sequence of well-formed calls from a position inside the asset succeeds; the position
stays inside the asset and the chunks handed over, put end to end, are the asset bytes between
the first and the last position. -/
theorem run_reads_spec (c : Env) (asset : List Byte) (hS : (asset.length : Int) ≤ INT_MAX) :
    ∀ (reqs : List (List Byte × Int)) (p : Int), 0 ≤ p → p ≤ asset.length →
      (∀ q ∈ reqs, 0 ≤ q.2 ∧ q.2 ≤ q.1.length) →
      ∃ rs, run_reads c asset p reqs = some rs ∧ rs.length = reqs.length ∧
        p ≤ final_pos p rs ∧ final_pos p rs ≤ asset.length ∧
        (c.AEL_IO_DONE ≤ 0 →
          (rs.map chunk).flatten = (asset.drop p.toNat).take ((final_pos p rs).toNat - p.toNat)) := by
  intro reqs
  induction reqs with
  | nil =>
    intro p hp0 hpS _
    refine ⟨[], rfl, rfl, le_refl _, hpS, ?_⟩
    intro _
    simp [final_pos]
  | cons q rest ih =>
    intro p hp0 hpS hv
    obtain ⟨buf, len⟩ := q
    have hq := hv (buf, len) (List.mem_cons_self _ _)
    obtain ⟨r, hr, hr1, hr2, hr3⟩ := read_cb_step c asset p buf len hS hp0 hpS hq.1 hq.2
    obtain ⟨rs, hrs, hl, h1, h2, h3⟩ := ih r.pos (by omega) hr2
      (fun q hq => hv q (List.mem_cons_of_mem _ hq))
    refine ⟨r :: rs, ?_, ?_, ?_, ?_, ?_⟩
    · exact run_reads_cons c asset p buf len rest r rs hr hrs
    · simp [hl]
    · show p ≤ final_pos r.pos rs
      omega
    · exact h2
    · intro hD
      show (chunk r :: rs.map chunk).flatten = _
      rw [List.flatten_cons, hr3 hD, h3 hD]
      show _ = (asset.drop p.toNat).take ((final_pos r.pos rs).toNat - p.toNat)
      exact take_drop_glue asset p.toNat r.pos.toNat (final_pos r.pos rs).toNat
        (by omega) (by omega)

/-! ## Control loop lemmas -/

theorem not_music_info_of_touch_tap (c : Env) (m : audio_event_iface_msg_t)
    (hdist : c.AUDIO_ELEMENT_TYPE_ELEMENT ≠ c.PERIPH_ID_TOUCH) (htap : is_touch_tap c m) :
    ¬ is_music_info c m := by
  intro hm
  exact hdist (hm.1.symm.trans htap.1)

/-- The loop body on a tap received from the touch peripheral: the music-info branch is not
taken and the pad number decides. -/
theorem loop_body_touch_tap (c : Env) (st : AppState) (i : LoopInput)
    (hdist : c.AUDIO_ELEMENT_TYPE_ELEMENT ≠ c.PERIPH_ID_TOUCH) (hok : i.ret = ESP_OK)
    (htap : is_touch_tap c i.msg) :
    loop_body c st i =
      if i.msg.data = LYRAT_TOUCH_PLAY then
        match i.el_state with
        | audio_element_state_t.AEL_STATE_INIT =>
          ⟨st, [Call.audio_event_iface_listen, Call.audio_element_get_state c.i2s_stream_writer,
                Call.audio_pipeline_run], false⟩
        | audio_element_state_t.AEL_STATE_RUNNING =>
          ⟨st, [Call.audio_event_iface_listen, Call.audio_element_get_state c.i2s_stream_writer,
                Call.audio_pipeline_pause], false⟩
        | audio_element_state_t.AEL_STATE_PAUSED =>
          ⟨st, [Call.audio_event_iface_listen, Call.audio_element_get_state c.i2s_stream_writer,
                Call.audio_pipeline_resume], false⟩
        | audio_element_state_t.AEL_STATE_FINISHED =>
          ⟨{ st with adf_music_mp3_pos := 0 },
           [Call.audio_event_iface_listen, Call.audio_element_get_state c.i2s_stream_writer,
            Call.audio_pipeline_resume], false⟩
        | _ =>
          ⟨st, [Call.audio_event_iface_listen, Call.audio_element_get_state c.i2s_stream_writer],
           false⟩
      else if i.msg.data = LYRAT_TOUCH_SET then
        ⟨st, [Call.audio_event_iface_listen], true⟩
      else if i.msg.data = LYRAT_TOUCH_VOLUP then
        ⟨{ st with player_volume :=
            if wrap_int (st.player_volume + 10) > 100 then 100
            else wrap_int (st.player_volume + 10) },
         [Call.audio_event_iface_listen,
          Call.audio_hal_set_volume
            (if wrap_int (st.player_volume + 10) > 100 then 100
             else wrap_int (st.player_volume + 10))], false⟩
      else if i.msg.data = LYRAT_TOUCH_VOLDWN then
        ⟨{ st with player_volume :=
            if wrap_int (st.player_volume - 10) < 0 then 0
            else wrap_int (st.player_volume - 10) },
         [Call.audio_event_iface_listen,
          Call.audio_hal_set_volume
            (if wrap_int (st.player_volume - 10) < 0 then 0
             else wrap_int (st.player_volume - 10))], false⟩
      else
        ⟨st, [Call.audio_event_iface_listen], false⟩ := by
  have hnm : ¬ (i.msg.source_type = c.AUDIO_ELEMENT_TYPE_ELEMENT ∧ i.msg.source = c.mp3_decoder
      ∧ i.msg.cmd = c.AEL_MSG_CMD_REPORT_MUSIC_INFO) :=
    not_music_info_of_touch_tap c i.msg hdist htap
  have htap2 : i.msg.source_type = c.PERIPH_ID_TOUCH ∧ i.msg.cmd = c.PERIPH_TOUCH_TAP
      ∧ i.msg.source = c.touch_periph := htap
  unfold loop_body
  rw [if_neg (not_not.mpr hok), if_neg hnm, if_pos htap2]

/-- The loop body never makes a teardown call. -/
theorem loop_body_no_teardown (c : Env) (st : AppState) (i : LoopInput) :
    (loop_body c st i).calls.filter is_teardown = [] := by
  unfold loop_body
  split_ifs <;> first | rfl | (split <;> rfl)

/-- The loop never makes a teardown call. -/
theorem control_loop_no_teardown (c : Env) :
    ∀ (inputs : List LoopInput) (v : Int),
      (control_loop c v inputs).calls.filter is_teardown = [] := by
  intro inputs
  induction inputs with
  | nil => intro v; rfl
  | cons i rest ih =>
    intro v
    unfold control_loop
    simp only
    split_ifs
    · exact loop_body_no_teardown c _ i
    · simp only [List.filter_append, loop_body_no_teardown, ih, List.append_nil]

/-- The loop on events received after earlier ones that did not end it. -/
theorem control_loop_append (c : Env) :
    ∀ (pre rest : List LoopInput) (v : Int), (control_loop c v pre).exited = false →
      control_loop c v (pre ++ rest) =
        ⟨(control_loop c (control_loop c v pre).player_volume rest).player_volume,
         (control_loop c v pre).calls ++
           (control_loop c (control_loop c v pre).player_volume rest).calls,
         (control_loop c (control_loop c v pre).player_volume rest).exited⟩ := by
  intro pre
  induction pre with
  | nil => intro rest v _; simp [control_loop]
  | cons i pre ih =>
    intro rest v h
    unfold control_loop at h
    simp only at h
    by_cases hx : (loop_body c ⟨i.adf_music_mp3_pos, v⟩ i).exits = true
    · rw [if_pos hx] at h
      simp at h
    · rw [if_neg hx] at h
      simp only at h
      have e1 : control_loop c v (i :: pre) =
          ⟨(control_loop c (loop_body c ⟨i.adf_music_mp3_pos, v⟩ i).st.player_volume pre).player_volume,
           (loop_body c ⟨i.adf_music_mp3_pos, v⟩ i).calls ++
             (control_loop c (loop_body c ⟨i.adf_music_mp3_pos, v⟩ i).st.player_volume pre).calls,
           (control_loop c (loop_body c ⟨i.adf_music_mp3_pos, v⟩ i).st.player_volume pre).exited⟩ := by
        conv_lhs => unfold control_loop
        simp only
        rw [if_neg hx]
      have e2 : control_loop c v (i :: pre ++ rest) =
          ⟨(control_loop c (loop_body c ⟨i.adf_music_mp3_pos, v⟩ i).st.player_volume
              (pre ++ rest)).player_volume,
           (loop_body c ⟨i.adf_music_mp3_pos, v⟩ i).calls ++
             (control_loop c (loop_body c ⟨i.adf_music_mp3_pos, v⟩ i).st.player_volume
               (pre ++ rest)).calls,
           (control_loop c (loop_body c ⟨i.adf_music_mp3_pos, v⟩ i).st.player_volume
               (pre ++ rest)).exited⟩ := by
        show control_loop c v (i :: (pre ++ rest)) = _
        conv_lhs => unfold control_loop
        simp only
        rw [if_neg hx]
      rw [e2, e1, ih rest _ h]
      simp only [List.append_assoc]

/-- One iteration keeps a volume within `0..100` within `0..100`, and passes only such
volumes to `audio_hal_set_volume`. -/
theorem loop_body_volume_range (c : Env) (st : AppState) (i : LoopInput)
    (h0 : 0 ≤ st.player_volume) (h1 : st.player_volume ≤ 100) :
    (0 ≤ (loop_body c st i).st.player_volume ∧ (loop_body c st i).st.player_volume ≤ 100) ∧
    ∀ v ∈ volumes_set (loop_body c st i).calls, 0 ≤ v ∧ v ≤ 100 := by
  have hu : wrap_int (st.player_volume + 10) = st.player_volume + 10 :=
    wrap_int_of_range _ (by omega) (by omega)
  have hd : wrap_int (st.player_volume - 10) = st.player_volume - 10 :=
    wrap_int_of_range _ (by omega) (by omega)
  unfold loop_body
  simp only [hu, hd]
  split_ifs <;> first
    | (simp [volumes_set, volume_of] <;> omega)
    | (split <;> simp [volumes_set, volume_of] <;> omega)

/-- The loop keeps a volume within `0..100` within `0..100`, and passes only such volumes to
`audio_hal_set_volume`. -/
theorem control_loop_volume_range (c : Env) :
    ∀ (inputs : List LoopInput) (v0 : Int), 0 ≤ v0 → v0 ≤ 100 →
      (0 ≤ (control_loop c v0 inputs).player_volume ∧
        (control_loop c v0 inputs).player_volume ≤ 100) ∧
      ∀ v ∈ volumes_set (control_loop c v0 inputs).calls, 0 ≤ v ∧ v ≤ 100 := by
  intro inputs
  induction inputs with
  | nil =>
    intro v0 h0 h1
    simp [control_loop, volumes_set, h0, h1]
  | cons i rest ih =>
    intro v0 h0 h1
    have hb := loop_body_volume_range c ⟨i.adf_music_mp3_pos, v0⟩ i h0 h1
    unfold control_loop
    simp only
    split_ifs
    · exact hb
    · have hr := ih (loop_body c ⟨i.adf_music_mp3_pos, v0⟩ i).st.player_volume hb.1.1 hb.1.2
      refine ⟨hr.1, ?_⟩
      intro v hv
      unfold volumes_set at hv
      rw [List.filterMap_append, List.mem_append] at hv
      rcases hv with hv | hv
      · exact hb.2 v hv
      · exact hr.2 v hv

/-- The position the reference reader leaves after a read of length `L` from the position
reached by `j` such reads. -/
theorem reference_reader_pos_fixed (c : Env) (asset : List Byte) (L j : Nat) (buf : List Byte) :
    (reference_reader c asset ((min (j * L) asset.length : Nat) : Int) buf (L : Int)).pos
      = ((min ((j + 1) * L) asset.length : Nat) : Int) := by
  have hmul : (j + 1) * L = j * L + L := by ring
  unfold reference_reader
  by_cases hend : ((min (j * L) asset.length : Nat) : Int) = (asset.length : Int)
  · rw [if_pos hend]
    show ((min (j * L) asset.length : Nat) : Int) = _
    omega
  · rw [if_neg hend]
    show ((min (j * L) asset.length : Nat) : Int) + min (L : Int) _ = _
    omega

/-- Calls with a fixed length `L > 0`, starting from the position reached by `j` such reads:
all succeed, the `k`-th of them returns what the reference reader returns at the position
reached by `j + k` reads, and the final position is the one reached by all the reads. -/
theorem fixed_reads (c : Env) (asset : List Byte) (hS : (asset.length : Int) ≤ INT_MAX) (L : Nat) :
    ∀ (bufs : List (List Byte)) (j : Nat), (∀ b ∈ bufs, L ≤ b.length) →
      ∃ rs, run_reads c asset ((min (j * L) asset.length : Nat) : Int)
          (bufs.map (fun b => (b, (L : Int)))) = some rs ∧
        final_pos ((min (j * L) asset.length : Nat) : Int) rs
          = ((min ((j + bufs.length) * L) asset.length : Nat) : Int) ∧
        ∀ k r, rs[k]? = some r → ∃ buf, bufs[k]? = some buf ∧
          r = reference_reader c asset ((min ((j + k) * L) asset.length : Nat) : Int) buf (L : Int) := by
  intro bufs
  induction bufs with
  | nil =>
    intro j _
    refine ⟨[], rfl, ?_, ?_⟩
    · simp [final_pos]
    · intro k r h
      simp at h
  | cons b rest ih =>
    intro j hb
    have hbl : ((L : Nat) : Int) ≤ (b.length : Int) := by
      have := hb b (List.mem_cons_self _ _)
      omega
    have hr := read_cb_eq_reference c asset ((min (j * L) asset.length : Nat) : Int) b (L : Int)
      hS (by omega) (by omega) (by omega) hbl
    have hpos := reference_reader_pos_fixed c asset L j b
    obtain ⟨rs, hrs, hfin, hidx⟩ := ih (j + 1) (fun x hx => hb x (List.mem_cons_of_mem _ hx))
    rw [← hpos] at hrs hfin
    refine ⟨reference_reader c asset ((min (j * L) asset.length : Nat) : Int) b (L : Int) :: rs,
      ?_, ?_, ?_⟩
    · exact run_reads_cons c asset _ b (L : Int) _ _ rs hr hrs
    · show final_pos (reference_reader c asset _ b (L : Int)).pos rs = _
      rw [hfin]
      have e : j + 1 + rest.length = j + (b :: rest).length := by
        simp only [List.length_cons]
        omega
      rw [e]
    · intro k r h
      cases k with
      | zero =>
        refine ⟨b, List.getElem?_cons_zero, ?_⟩
        simp only [List.getElem?_cons_zero, Option.some.injEq] at h
        rw [← h]
        rfl
      | succ k =>
        simp only [List.getElem?_cons_succ] at h
        obtain ⟨buf, hbuf, hr2⟩ := hidx k r h
        refine ⟨buf, ?_, ?_⟩
        · simp only [List.getElem?_cons_succ]
          exact hbuf
        · rw [hr2]
          have e : j + 1 + k = j + (k + 1) := by omega
          rw [e]

theorem ceil_div_lt_iff (k S L : Nat) (hL : 0 < L) : k < (S + L - 1) / L ↔ k * L < S := by
  rw [Nat.lt_iff_add_one_le, Nat.le_div_iff_mul_le hL, Nat.add_mul]
  omega

/-! ## The read callback against its contract -/

/-- C1: for an asset of size `S` (representable as an `int`), a position `0 ≤ p ≤ S` and a length
`len ≥ 0` with a buffer that holds `len` bytes, `mp3_music_read_cb` returns exactly what the
reference reader returns. At `p = S` that is `AEL_IO_DONE` with buffer and position untouched;
otherwise the return value is `n = min(len, S - p)`, the first `n` bytes of the buffer are the
asset bytes `p .. p+n-1`, the rest of the buffer is unchanged, and the position becomes `p + n`,
so that `n ≤ len` and `p + n ≤ S`. -/
theorem mp3_music_read_cb_contract (c : Env) (asset : List Byte) (p : Int) (buf : List Byte)
    (len : Int) (hS : (asset.length : Int) ≤ INT_MAX) (hp0 : 0 ≤ p) (hpS : p ≤ asset.length)
    (hlen : 0 ≤ len) (hbuf : len ≤ buf.length) :
    mp3_music_read_cb c asset p buf len = some (reference_reader c asset p buf len) ∧
    (if p = asset.length then
      reference_reader c asset p buf len = ⟨c.AEL_IO_DONE, buf, p⟩
    else
      (reference_reader c asset p buf len).ret = min len ((asset.length : Int) - p) ∧
      0 ≤ (reference_reader c asset p buf len).ret ∧
      (reference_reader c asset p buf len).ret ≤ len ∧
      (reference_reader c asset p buf len).pos = p + (reference_reader c asset p buf len).ret ∧
      (reference_reader c asset p buf len).pos ≤ asset.length ∧
      (reference_reader c asset p buf len).buf.take (reference_reader c asset p buf len).ret.toNat
        = (asset.drop p.toNat).take (reference_reader c asset p buf len).ret.toNat ∧
      (reference_reader c asset p buf len).buf.drop (reference_reader c asset p buf len).ret.toNat
        = buf.drop (reference_reader c asset p buf len).ret.toNat ∧
      ((asset.drop p.toNat).take (reference_reader c asset p buf len).ret.toNat).length
        = (reference_reader c asset p buf len).ret.toNat) := by
  refine ⟨read_cb_eq_reference c asset p buf len hS hp0 hpS hlen hbuf, ?_⟩
  by_cases hend : p = asset.length
  · rw [if_pos hend]
    unfold reference_reader
    rw [if_pos hend]
  · rw [if_neg hend]
    unfold reference_reader
    rw [if_neg hend]
    simp only
    have hn0 : 0 ≤ min len ((asset.length : Int) - p) := le_min hlen (by omega)
    have hn1 : min len ((asset.length : Int) - p) ≤ (asset.length : Int) - p := min_le_right _ _
    have hn2 : min len ((asset.length : Int) - p) ≤ len := min_le_left _ _
    have hlen2 : (min len ((asset.length : Int) - p)).toNat ≤ (asset.drop p.toNat).length := by
      rw [List.length_drop]
      omega
    refine ⟨trivial, hn0, hn2, trivial, by omega, ?_, ?_, ?_⟩
    · have h := take_patch (asset.drop p.toNat) buf _ hlen2
      rw [h]
    · exact drop_patch (asset.drop p.toNat) buf _ hlen2
    · rw [List.length_take]
      omega

/-- Witness for C1: an asset of five bytes read at position 3 with length 4 into a six-byte
buffer. -/
theorem mp3_music_read_cb_contract_witness :
    mp3_music_read_cb ⟨-2, 131072, 1, 4099, 2, 10, 11, 12⟩ [1, 2, 3, 4, 5] 3 [0, 0, 0, 0, 0, 0] 4
      = some ⟨2, [4, 5, 0, 0, 0, 0], 5⟩ := by
  have h := (mp3_music_read_cb_contract ⟨-2, 131072, 1, 4099, 2, 10, 11, 12⟩ [1, 2, 3, 4, 5] 3
    [0, 0, 0, 0, 0, 0] 4 (by decide) (by decide) (by decide) (by decide) (by decide)).1
  rw [h]
  decide

/-! ## Rewind -/

/-- C2: rewind is a replay. Take any asset (of a size representable as an `int`), any `len ≥ 0`
and an original run that starts at position 0 with a call of length `len` and goes on with any
sequence of well-formed reads (possibly up to `AEL_IO_DONE`). The run succeeds; a Play tap
received while the i2s writer is `FINISHED` resets the position to 0 and resumes the pipeline;
and the next call with length `len` (into any buffer that holds `len` bytes) returns the same
value, leaves the same position and delivers the same bytes as the first call of the original
run, namely the first `min(len, S)` bytes of the asset. -/
theorem rewind_replays_first_read (c : Env) (asset : List Byte) (buf1 : List Byte) (len : Int)
    (reqs : List (List Byte × Int)) (vol : Int) (i : LoopInput) (buf2 : List Byte)
    (hS : (asset.length : Int) ≤ INT_MAX)
    (hdist : c.AUDIO_ELEMENT_TYPE_ELEMENT ≠ c.PERIPH_ID_TOUCH)
    (hlen : 0 ≤ len) (hb1 : len ≤ buf1.length) (hb2 : len ≤ buf2.length)
    (hreqs : ∀ q ∈ reqs, 0 ≤ q.2 ∧ q.2 ≤ q.1.length)
    (hok : i.ret = ESP_OK) (htap : is_touch_tap c i.msg) (hplay : i.msg.data = LYRAT_TOUCH_PLAY)
    (hfin : i.el_state = audio_element_state_t.AEL_STATE_FINISHED) :
    ∃ first rs again,
      run_reads c asset 0 ((buf1, len) :: reqs) = some (first :: rs) ∧
      mp3_music_read_cb c asset 0 buf1 len = some first ∧
      loop_body c ⟨final_pos 0 (first :: rs), vol⟩ i =
        ⟨⟨0, vol⟩, [Call.audio_event_iface_listen,
          Call.audio_element_get_state c.i2s_stream_writer, Call.audio_pipeline_resume], false⟩ ∧
      mp3_music_read_cb c asset
        (loop_body c ⟨final_pos 0 (first :: rs), vol⟩ i).st.adf_music_mp3_pos buf2 len
          = some again ∧
      again.ret = first.ret ∧ again.pos = first.pos ∧
      first.ret = (if asset = [] then c.AEL_IO_DONE else min len asset.length) ∧
      again.buf.take (min len asset.length).toNat = first.buf.take (min len asset.length).toNat ∧
      first.buf.take (min len asset.length).toNat = asset.take (min len asset.length).toNat := by
  have h1 := read_cb_eq_reference c asset 0 buf1 len hS (le_refl _) (by omega) hlen hb1
  have h2 := read_cb_eq_reference c asset 0 buf2 len hS (le_refl _) (by omega) hlen hb2
  obtain ⟨r1, hr1, hp1, hp2, -⟩ :=
    read_cb_step c asset 0 buf1 len hS (le_refl _) (by omega) hlen hb1
  have hr1eq : r1 = reference_reader c asset 0 buf1 len := by
    rw [hr1] at h1
    exact Option.some.inj h1
  obtain ⟨rs, hrs, -, -, -, -⟩ := run_reads_spec c asset hS reqs r1.pos (by omega) hp2 hreqs
  have hbody : loop_body c ⟨final_pos 0 (r1 :: rs), vol⟩ i =
      ⟨⟨0, vol⟩, [Call.audio_event_iface_listen,
        Call.audio_element_get_state c.i2s_stream_writer, Call.audio_pipeline_resume], false⟩ := by
    rw [loop_body_touch_tap c _ i hdist hok htap, if_pos hplay, hfin]
  refine ⟨r1, rs, reference_reader c asset 0 buf2 len, ?_, hr1, hbody, ?_, ?_⟩
  · exact run_reads_cons c asset 0 buf1 len reqs r1 rs hr1 hrs
  · rw [hbody]
    exact h2
  · rw [hr1eq]
    by_cases he : asset = []
    · subst he
      refine ⟨rfl, rfl, rfl, ?_, ?_⟩
      · show List.take (min len 0).toNat _ = List.take (min len 0).toNat _
        have hz : (min len (0 : Int)).toNat = 0 := by
          have := min_le_right len (0 : Int)
          omega
        rw [hz, List.take_zero, List.take_zero]
      · show List.take (min len 0).toNat _ = List.take (min len 0).toNat _
        have hz : (min len (0 : Int)).toNat = 0 := by
          have := min_le_right len (0 : Int)
          omega
        rw [hz, List.take_zero, List.take_zero]
    · have hpos : 0 < asset.length := List.length_pos.mpr he
      have hl : ¬ ((0 : Int) = ((asset.length : Nat) : Int)) := by omega
      have hle : (min len (asset.length : Int)).toNat ≤ asset.length := by
        have := min_le_right len (asset.length : Int)
        omega
      have e1 : reference_reader c asset 0 buf1 len =
          ⟨min len (asset.length : Int),
           asset.take (min len (asset.length : Int)).toNat
             ++ buf1.drop (min len (asset.length : Int)).toNat,
           0 + min len (asset.length : Int)⟩ := by
        unfold reference_reader
        rw [if_neg hl]
        simp only [sub_zero, Int.toNat_zero, List.drop_zero]
      have e2 : reference_reader c asset 0 buf2 len =
          ⟨min len (asset.length : Int),
           asset.take (min len (asset.length : Int)).toNat
             ++ buf2.drop (min len (asset.length : Int)).toNat,
           0 + min len (asset.length : Int)⟩ := by
        unfold reference_reader
        rw [if_neg hl]
        simp only [sub_zero, Int.toNat_zero, List.drop_zero]
      rw [e1, e2, if_neg he]
      refine ⟨rfl, rfl, rfl, ?_, ?_⟩
      · show List.take _ (_ ++ _) = List.take _ (_ ++ _)
        rw [take_patch asset buf2 _ hle, take_patch asset buf1 _ hle]
      · show List.take _ (_ ++ _) = _
        rw [take_patch asset buf1 _ hle]

/-- Witness for C2: a five-byte asset is read to its end in chunks of three (the third call
reports `AEL_IO_DONE`), then the Play tap arrives in state `FINISHED`. -/
theorem rewind_replays_first_read_witness :
    ∃ first rs again,
      run_reads sample_env [1, 2, 3, 4, 5] 0
        (([0, 0, 0], 3) :: [([0, 0, 0], 3), ([0, 0, 0], 3)]) = some (first :: rs) ∧
      mp3_music_read_cb sample_env [1, 2, 3, 4, 5] 0 [0, 0, 0] 3 = some first ∧
      loop_body sample_env ⟨final_pos 0 (first :: rs), 50⟩
          ⟨0, ⟨1, 8, 12, 4099⟩, audio_element_state_t.AEL_STATE_FINISHED, ⟨0, 0, 0, 0, 0⟩, 5⟩ =
        ⟨⟨0, 50⟩, [Call.audio_event_iface_listen,
          Call.audio_element_get_state sample_env.i2s_stream_writer,
          Call.audio_pipeline_resume], false⟩ ∧
      mp3_music_read_cb sample_env [1, 2, 3, 4, 5]
        (loop_body sample_env ⟨final_pos 0 (first :: rs), 50⟩
          ⟨0, ⟨1, 8, 12, 4099⟩, audio_element_state_t.AEL_STATE_FINISHED, ⟨0, 0, 0, 0, 0⟩,
            5⟩).st.adf_music_mp3_pos [9, 9, 9, 9] 3 = some again ∧
      again.ret = first.ret ∧ again.pos = first.pos ∧
      first.ret = (if ([1, 2, 3, 4, 5] : List Byte) = [] then sample_env.AEL_IO_DONE
        else min 3 (([1, 2, 3, 4, 5] : List Byte).length : Int)) ∧
      again.buf.take (min 3 (([1, 2, 3, 4, 5] : List Byte).length : Int)).toNat
        = first.buf.take (min 3 (([1, 2, 3, 4, 5] : List Byte).length : Int)).toNat ∧
      first.buf.take (min 3 (([1, 2, 3, 4, 5] : List Byte).length : Int)).toNat
        = ([1, 2, 3, 4, 5] : List Byte).take
            (min 3 (([1, 2, 3, 4, 5] : List Byte).length : Int)).toNat :=
  rewind_replays_first_read sample_env [1, 2, 3, 4, 5] [0, 0, 0] 3
    [([0, 0, 0], 3), ([0, 0, 0], 3)] 50
    ⟨0, ⟨1, 8, 12, 4099⟩, audio_element_state_t.AEL_STATE_FINISHED, ⟨0, 0, 0, 0, 0⟩, 5⟩
    [9, 9, 9, 9] (by decide) (by decide) (by decide) (by decide) (by decide) (by decide)
    (by decide) (by decide) (by decide) rfl

/-! ## The Play tap -/

/-- C3: the state of the i2s writer alone decides what a Play tap does. On a Play tap (pad 8)
from the registered touch peripheral the loop body reads the state of the i2s writer and then
issues exactly one pipeline command: run in `INIT`, pause in `RUNNING`, resume in `PAUSED`,
and resume after resetting the read position to 0 in `FINISHED`; in every other state it
issues none. The loop goes on and the volume is unchanged. In particular resume is not issued
from `INIT` and pause is not issued from `FINISHED`. -/
theorem play_tap_decided_by_state (c : Env) (st : AppState) (i : LoopInput)
    (hdist : c.AUDIO_ELEMENT_TYPE_ELEMENT ≠ c.PERIPH_ID_TOUCH) (hok : i.ret = ESP_OK)
    (htap : is_touch_tap c i.msg) (hplay : i.msg.data = LYRAT_TOUCH_PLAY) :
    (loop_body c st i).exits = false ∧
    (loop_body c st i).st.player_volume = st.player_volume ∧
    (loop_body c st i).calls =
      [Call.audio_event_iface_listen, Call.audio_element_get_state c.i2s_stream_writer] ++
      (match i.el_state with
        | audio_element_state_t.AEL_STATE_INIT => [Call.audio_pipeline_run]
        | audio_element_state_t.AEL_STATE_RUNNING => [Call.audio_pipeline_pause]
        | audio_element_state_t.AEL_STATE_PAUSED => [Call.audio_pipeline_resume]
        | audio_element_state_t.AEL_STATE_FINISHED => [Call.audio_pipeline_resume]
        | _ => []) ∧
    (loop_body c st i).calls.filter is_pipeline_call =
      (match i.el_state with
        | audio_element_state_t.AEL_STATE_INIT => [Call.audio_pipeline_run]
        | audio_element_state_t.AEL_STATE_RUNNING => [Call.audio_pipeline_pause]
        | audio_element_state_t.AEL_STATE_PAUSED => [Call.audio_pipeline_resume]
        | audio_element_state_t.AEL_STATE_FINISHED => [Call.audio_pipeline_resume]
        | _ => []) ∧
    (loop_body c st i).st.adf_music_mp3_pos =
      (if i.el_state = audio_element_state_t.AEL_STATE_FINISHED then 0
       else st.adf_music_mp3_pos) ∧
    (i.el_state = audio_element_state_t.AEL_STATE_INIT →
      Call.audio_pipeline_resume ∉ (loop_body c st i).calls) ∧
    (i.el_state = audio_element_state_t.AEL_STATE_FINISHED →
      Call.audio_pipeline_pause ∉ (loop_body c st i).calls) := by
  rw [loop_body_touch_tap c st i hdist hok htap, if_pos hplay]
  cases i.el_state <;> simp [is_pipeline_call]

/-- Witness for C3: a Play tap while the i2s writer is `RUNNING` pauses the pipeline. -/
theorem play_tap_decided_by_state_witness :
    (loop_body sample_env ⟨7, 50⟩
      ⟨0, ⟨1, 8, 12, 4099⟩, audio_element_state_t.AEL_STATE_RUNNING, ⟨0, 0, 0, 0, 0⟩, 7⟩).calls
      = [Call.audio_event_iface_listen, Call.audio_element_get_state 11,
         Call.audio_pipeline_pause] :=
  (play_tap_decided_by_state sample_env ⟨7, 50⟩
    ⟨0, ⟨1, 8, 12, 4099⟩, audio_element_state_t.AEL_STATE_RUNNING, ⟨0, 0, 0, 0, 0⟩, 7⟩
    (by decide) (by decide) (by decide) (by decide)).2.2.1

/-! ## Teardown -/

/-- C4: in every execution of `app_main` the teardown calls come in program order and only
after the loop has ended. The calls made are those made up to and inside the loop, none of
which is a teardown call, followed, exactly when the loop has been left, by
`audio_pipeline_terminate`, `audio_pipeline_remove_listener`, `audio_event_iface_destroy`,
`audio_pipeline_deinit` and the two element deinits, in this order. -/
theorem teardown_order (c : Env) (b : Boot) (inputs : List LoopInput) :
    app_main c b inputs =
      (if b.mem_assert_passes = true then
        setup_head ++ setup_tail c ++ (control_loop c b.player_volume inputs).calls
       else setup_head) ++
      (if b.mem_assert_passes = true ∧ (control_loop c b.player_volume inputs).exited = true then
        [Call.audio_pipeline_terminate, Call.audio_pipeline_remove_listener,
         Call.audio_event_iface_destroy, Call.audio_pipeline_deinit,
         Call.audio_element_deinit c.i2s_stream_writer, Call.audio_element_deinit c.mp3_decoder]
       else []) ∧
    (if b.mem_assert_passes = true then
        setup_head ++ setup_tail c ++ (control_loop c b.player_volume inputs).calls
       else setup_head).filter is_teardown = [] ∧
    (app_main c b inputs).filter is_teardown =
      (if b.mem_assert_passes = true ∧ (control_loop c b.player_volume inputs).exited = true then
        [Call.audio_pipeline_terminate, Call.audio_pipeline_remove_listener,
         Call.audio_event_iface_destroy, Call.audio_pipeline_deinit,
         Call.audio_element_deinit c.i2s_stream_writer, Call.audio_element_deinit c.mp3_decoder]
       else []) := by
  obtain ⟨passes, vol⟩ := b
  have hloop := control_loop_no_teardown c inputs vol
  have hhead : setup_head.filter is_teardown = [] := rfl
  have htail : (setup_tail c).filter is_teardown = [] := rfl
  have hdown : (teardown c).filter is_teardown = teardown c := rfl
  have hlist : teardown c =
      [Call.audio_pipeline_terminate, Call.audio_pipeline_remove_listener,
       Call.audio_event_iface_destroy, Call.audio_pipeline_deinit,
       Call.audio_element_deinit c.i2s_stream_writer,
       Call.audio_element_deinit c.mp3_decoder] := rfl
  unfold app_main
  cases passes with
  | false =>
    simp only [Bool.false_eq_true, if_false, false_and, List.append_nil, hhead, and_self]
  | true =>
    cases hx : (control_loop c vol inputs).exited with
    | false =>
      simp only [if_true, hx, Bool.false_eq_true, if_false, and_false, List.append_nil,
        List.filter_append, hhead, htail, hloop, and_self, List.filter_nil]
    | true =>
      simp only [if_true, and_self, hx, List.filter_append, hhead, htail, hloop, hdown,
        List.nil_append, ← hlist]

/-- Evaluation of C4 on a run that receives a Play tap in state `INIT` and then a Set tap. -/
theorem teardown_order_witness :
    app_main sample_env ⟨true, 50⟩
      [⟨0, ⟨1, 8, 12, 4099⟩, audio_element_state_t.AEL_STATE_INIT, ⟨0, 0, 0, 0, 0⟩, 0⟩,
       ⟨0, ⟨1, 9, 12, 4099⟩, audio_element_state_t.AEL_STATE_RUNNING, ⟨0, 0, 0, 0, 0⟩, 0⟩] =
      (setup_head ++ setup_tail sample_env ++
        [Call.audio_event_iface_listen, Call.audio_element_get_state 11, Call.audio_pipeline_run,
         Call.audio_event_iface_listen]) ++
      [Call.audio_pipeline_terminate, Call.audio_pipeline_remove_listener,
       Call.audio_event_iface_destroy, Call.audio_pipeline_deinit,
       Call.audio_element_deinit 11, Call.audio_element_deinit 10] := by
  have h := (teardown_order sample_env ⟨true, 50⟩
    [⟨0, ⟨1, 8, 12, 4099⟩, audio_element_state_t.AEL_STATE_INIT, ⟨0, 0, 0, 0, 0⟩, 0⟩,
     ⟨0, ⟨1, 9, 12, 4099⟩, audio_element_state_t.AEL_STATE_RUNNING, ⟨0, 0, 0, 0, 0⟩, 0⟩]).1
  rw [h]
  decide

/-! ## Music info -/

/-- C5: metadata travels downstream only through the explicit event. On a received message
whose source type is element, whose source is the mp3 decoder and whose command is
`AEL_MSG_CMD_REPORT_MUSIC_INFO`, the loop body reads the decoder's info record, sets the i2s
writer's info to exactly that record and sets the i2s clock to its sample rate, bit depth and
channel count; it makes no pipeline call and no volume change, leaves the variables alone and
stays in the loop. On any other message, and on a failed listen, it makes no call that sets
an info record or the i2s clock. -/
theorem music_info_forwarded_on_report_only (c : Env) (st : AppState) (i : LoopInput) :
    if i.ret = ESP_OK ∧ is_music_info c i.msg then
      loop_body c st i =
        ⟨st, [Call.audio_event_iface_listen,
              Call.audio_element_getinfo c.mp3_decoder,
              Call.audio_element_setinfo c.i2s_stream_writer i.music_info,
              Call.i2s_stream_set_clk c.i2s_stream_writer i.music_info.sample_rates
                i.music_info.bits i.music_info.channels], false⟩ ∧
      (loop_body c st i).calls.filter is_pipeline_call = [] ∧
      (loop_body c st i).calls.filter is_volume_change = []
    else
      (loop_body c st i).calls.filter is_info_or_clk = [] := by
  by_cases h : i.ret = ESP_OK ∧ is_music_info c i.msg
  · rw [if_pos h]
    have hm : i.msg.source_type = c.AUDIO_ELEMENT_TYPE_ELEMENT ∧ i.msg.source = c.mp3_decoder
        ∧ i.msg.cmd = c.AEL_MSG_CMD_REPORT_MUSIC_INFO := h.2
    have hb : loop_body c st i =
        ⟨st, [Call.audio_event_iface_listen,
              Call.audio_element_getinfo c.mp3_decoder,
              Call.audio_element_setinfo c.i2s_stream_writer i.music_info,
              Call.i2s_stream_set_clk c.i2s_stream_writer i.music_info.sample_rates
                i.music_info.bits i.music_info.channels], false⟩ := by
      unfold loop_body
      rw [if_neg (not_not.mpr h.1), if_pos hm]
    rw [hb]
    exact ⟨rfl, rfl, rfl⟩
  · rw [if_neg h]
    unfold loop_body
    by_cases hok : i.ret = ESP_OK
    · have hm : ¬ (i.msg.source_type = c.AUDIO_ELEMENT_TYPE_ELEMENT ∧ i.msg.source = c.mp3_decoder
          ∧ i.msg.cmd = c.AEL_MSG_CMD_REPORT_MUSIC_INFO) := fun hm => h ⟨hok, hm⟩
      rw [if_neg (not_not.mpr hok), if_neg hm]
      split_ifs <;> first | rfl | (split <;> rfl)
    · rw [if_pos hok]
      rfl

/-- Evaluation of C5 on a music-info report with record 44100 Hz, 16 bits, 2 channels. -/
theorem music_info_forwarded_on_report_only_witness :
    loop_body sample_env ⟨7, 50⟩
      ⟨0, ⟨3, 0, 10, 131072⟩, audio_element_state_t.AEL_STATE_RUNNING, ⟨44100, 16, 2, 0, 0⟩, 7⟩
      = ⟨⟨7, 50⟩, [Call.audio_event_iface_listen, Call.audio_element_getinfo 10,
          Call.audio_element_setinfo 11 ⟨44100, 16, 2, 0, 0⟩,
          Call.i2s_stream_set_clk 11 44100 16 2], false⟩ := by
  have h := music_info_forwarded_on_report_only sample_env ⟨7, 50⟩
    ⟨0, ⟨3, 0, 10, 131072⟩, audio_element_state_t.AEL_STATE_RUNNING, ⟨44100, 16, 2, 0, 0⟩, 7⟩
  rw [if_pos (by decide)] at h
  exact h.1

/-! ## The HTTP stream hook -/

/-- C6: the return value of the HTTP stream hook handler is tri-state. At any phase a negative
return stops the HTTP client and the current operation surfaces as `IO_FAIL`, with no default
action; a positive return lets the operation proceed without the default action of the phase
(at `HTTP_STREAM_ON_REQUEST` the `post_field` payload is not sent, at
`HTTP_STREAM_ON_RESPONSE` the stream does not read); a return of 0 proceeds with the default
action (send `post_field` at the request phase, read from the server at the response phase). -/
theorem http_hook_return_tristate (event_handle : http_stream_event_handle_t)
    (msg : http_stream_event_msg_t) :
    (if event_handle msg < 0 then
      http_stream_hook_point event_handle msg
        = ⟨HookResult.IO_FAIL, [HttpAction.stop_http_client]⟩
    else if event_handle msg > 0 then
      http_stream_hook_point event_handle msg = ⟨HookResult.proceeds, []⟩
    else
      http_stream_hook_point event_handle msg =
        ⟨HookResult.proceeds,
         match msg.event_id with
         | http_stream_event_id_t.HTTP_STREAM_ON_REQUEST => [HttpAction.send_post_field]
         | http_stream_event_id_t.HTTP_STREAM_ON_RESPONSE => [HttpAction.read_from_server]
         | _ => []⟩) ∧
    (http_stream_hook_point event_handle msg).actions.filter
      (fun a => a = HttpAction.send_post_field ∨ a = HttpAction.read_from_server) =
      (if event_handle msg = 0 then http_stream_default_action msg.event_id else []) := by
  unfold http_stream_hook_point
  simp only
  by_cases hneg : event_handle msg < 0
  · have hz : ¬ event_handle msg = 0 := by omega
    rw [if_pos hneg, if_pos hneg, if_neg hz]
    exact ⟨rfl, rfl⟩
  · by_cases hpos : event_handle msg > 0
    · have hz : ¬ event_handle msg = 0 := by omega
      rw [if_neg hneg, if_neg hneg, if_pos hpos, if_pos hpos, if_neg hz]
      exact ⟨rfl, rfl⟩
    · have hz : event_handle msg = 0 := by omega
      rw [if_neg hneg, if_neg hneg, if_neg hpos, if_neg hpos, if_pos hz]
      cases msg.event_id <;> exact ⟨rfl, rfl⟩

/-- Evaluation of C6 at the request phase with a handler that returns 1: the payload is not
sent. -/
theorem http_hook_return_tristate_witness :
    http_stream_hook_point (fun _ => 1)
      ⟨http_stream_event_id_t.HTTP_STREAM_ON_REQUEST, 1, [], 0, 0⟩
      = ⟨HookResult.proceeds, []⟩ := by
  have h := (http_hook_return_tristate (fun _ => 1)
    ⟨http_stream_event_id_t.HTTP_STREAM_ON_REQUEST, 1, [], 0, 0⟩).1
  rw [if_neg (by decide), if_pos (by decide)] at h
  exact h

/-! ## The Set tap -/

/-- C7: the control loop stops exactly on a Set tap. An iteration leaves the loop if and only
if it received (with `ESP_OK`) a tap of the Set pad (pad 9) from the registered touch
peripheral; such an iteration makes no call besides the listen itself and changes no variable,
so it issues no run, pause or resume and no volume change; every other message and every
failed listen leaves the loop running. When the Set tap arrives after events that did not end
the loop, the call that follows its listen is `audio_pipeline_terminate`, the first of the
teardown calls. -/
theorem set_tap_ends_loop (c : Env) (st : AppState) (i : LoopInput) (b : Boot)
    (pre rest : List LoopInput)
    (hdist : c.AUDIO_ELEMENT_TYPE_ELEMENT ≠ c.PERIPH_ID_TOUCH)
    (hb : b.mem_assert_passes = true)
    (hpre : (control_loop c b.player_volume pre).exited = false) :
    ((loop_body c st i).exits = true ↔
      (i.ret = ESP_OK ∧ is_touch_tap c i.msg ∧ i.msg.data = LYRAT_TOUCH_SET)) ∧
    ((loop_body c st i).exits = true →
      loop_body c st i = ⟨st, [Call.audio_event_iface_listen], true⟩) ∧
    ((i.ret = ESP_OK ∧ is_touch_tap c i.msg ∧ i.msg.data = LYRAT_TOUCH_SET) →
      app_main c b (pre ++ i :: rest) =
        setup_head ++ setup_tail c ++ (control_loop c b.player_volume pre).calls ++
          [Call.audio_event_iface_listen, Call.audio_pipeline_terminate,
           Call.audio_pipeline_remove_listener, Call.audio_event_iface_destroy,
           Call.audio_pipeline_deinit, Call.audio_element_deinit c.i2s_stream_writer,
           Call.audio_element_deinit c.mp3_decoder]) := by
  have hset : ∀ (s : AppState), (i.ret = ESP_OK ∧ is_touch_tap c i.msg ∧ i.msg.data = LYRAT_TOUCH_SET) →
      loop_body c s i = ⟨s, [Call.audio_event_iface_listen], true⟩ := by
    intro s h
    have hnp : ¬ i.msg.data = LYRAT_TOUCH_PLAY := by
      rw [h.2.2]
      decide
    rw [loop_body_touch_tap c s i hdist h.1 h.2.1, if_neg hnp, if_pos h.2.2]
  have hexit : (loop_body c st i).exits = true →
      (i.ret = ESP_OK ∧ is_touch_tap c i.msg ∧ i.msg.data = LYRAT_TOUCH_SET) := by
    unfold loop_body
    by_cases hok : i.ret = ESP_OK
    · rw [if_neg (not_not.mpr hok)]
      by_cases hm : i.msg.source_type = c.AUDIO_ELEMENT_TYPE_ELEMENT ∧ i.msg.source = c.mp3_decoder
          ∧ i.msg.cmd = c.AEL_MSG_CMD_REPORT_MUSIC_INFO
      · rw [if_pos hm]
        intro h
        simp at h
      · rw [if_neg hm]
        by_cases ht : i.msg.source_type = c.PERIPH_ID_TOUCH ∧ i.msg.cmd = c.PERIPH_TOUCH_TAP
            ∧ i.msg.source = c.touch_periph
        · rw [if_pos ht]
          by_cases hp : i.msg.data = LYRAT_TOUCH_PLAY
          · rw [if_pos hp]
            intro h
            exfalso
            revert h
            cases i.el_state <;> simp
          · rw [if_neg hp]
            by_cases hs : i.msg.data = LYRAT_TOUCH_SET
            · intro _
              exact ⟨hok, ht, hs⟩
            · rw [if_neg hs]
              intro h
              exfalso
              revert h
              split_ifs <;> simp
        · rw [if_neg ht]
          intro h
          simp at h
    · rw [if_pos hok]
      intro h
      simp at h
  refine ⟨⟨hexit, fun h => ?_⟩, fun h => hset st (hexit h), fun h => ?_⟩
  · rw [hset st h]
  · have hi : control_loop c (control_loop c b.player_volume pre).player_volume (i :: rest) =
        ⟨(control_loop c b.player_volume pre).player_volume,
         [Call.audio_event_iface_listen], true⟩ := by
      conv_lhs => unfold control_loop
      simp only
      rw [hset _ h]
      simp only [if_true]
    unfold app_main
    rw [if_pos hb, control_loop_append c pre (i :: rest) b.player_volume hpre, hi]
    simp only [if_true, teardown, List.append_assoc, List.singleton_append]

/-- Witness for C7: after a Vol+ tap, a Set tap ends the loop and the teardown follows. -/
theorem set_tap_ends_loop_witness :
    app_main sample_env ⟨true, 50⟩
      ([⟨0, ⟨1, 7, 12, 4099⟩, audio_element_state_t.AEL_STATE_RUNNING, ⟨0, 0, 0, 0, 0⟩, 0⟩] ++
        ⟨0, ⟨1, 9, 12, 4099⟩, audio_element_state_t.AEL_STATE_RUNNING, ⟨0, 0, 0, 0, 0⟩, 0⟩ ::
          [⟨0, ⟨1, 8, 12, 4099⟩, audio_element_state_t.AEL_STATE_RUNNING, ⟨0, 0, 0, 0, 0⟩, 0⟩]) =
      setup_head ++ setup_tail sample_env ++
        (control_loop sample_env (Boot.mk true 50).player_volume
          [⟨0, ⟨1, 7, 12, 4099⟩, audio_element_state_t.AEL_STATE_RUNNING,
            ⟨0, 0, 0, 0, 0⟩, 0⟩]).calls ++
        [Call.audio_event_iface_listen, Call.audio_pipeline_terminate,
         Call.audio_pipeline_remove_listener, Call.audio_event_iface_destroy,
         Call.audio_pipeline_deinit, Call.audio_element_deinit sample_env.i2s_stream_writer,
         Call.audio_element_deinit sample_env.mp3_decoder] :=
  (set_tap_ends_loop sample_env ⟨0, 50⟩
    ⟨0, ⟨1, 9, 12, 4099⟩, audio_element_state_t.AEL_STATE_RUNNING, ⟨0, 0, 0, 0, 0⟩, 0⟩
    ⟨true, 50⟩
    [⟨0, ⟨1, 7, 12, 4099⟩, audio_element_state_t.AEL_STATE_RUNNING, ⟨0, 0, 0, 0, 0⟩, 0⟩]
    [⟨0, ⟨1, 8, 12, 4099⟩, audio_element_state_t.AEL_STATE_RUNNING, ⟨0, 0, 0, 0, 0⟩, 0⟩]
    (by decide) rfl (by decide)).2.2 (by decide)

/-! ## Volume taps -/

/-- C9: volume taps step by 10 and saturate. On a Vol+ tap (pad 7) from the registered touch
peripheral, with `player_volume = v` an `int` for which `v + 10` does not overflow, the loop
body sets `player_volume` to `min(v + 10, 100)` and passes that value to
`audio_hal_set_volume`; on a Vol- tap (pad 4), with `v - 10` not overflowing, it sets
`player_volume` to `max(v - 10, 0)` and passes that value. Hence, when the volume read at
start-up is within `0..100`, every value passed to `audio_hal_set_volume` by the loop, and by
`app_main` as a whole, after any sequence of received events is within `0..100`, and so is
`player_volume` itself. -/
theorem volume_taps_step_and_saturate (c : Env) (st : AppState) (i : LoopInput) (b : Boot)
    (inputs : List LoopInput)
    (hdist : c.AUDIO_ELEMENT_TYPE_ELEMENT ≠ c.PERIPH_ID_TOUCH) (hok : i.ret = ESP_OK)
    (htap : is_touch_tap c i.msg)
    (h0 : 0 ≤ b.player_volume) (h1 : b.player_volume ≤ 100) :
    (i.msg.data = LYRAT_TOUCH_VOLUP → INT_MIN ≤ st.player_volume →
      st.player_volume + 10 ≤ INT_MAX →
      loop_body c st i =
        ⟨⟨st.adf_music_mp3_pos, min (st.player_volume + 10) 100⟩,
         [Call.audio_event_iface_listen,
          Call.audio_hal_set_volume (min (st.player_volume + 10) 100)], false⟩) ∧
    (i.msg.data = LYRAT_TOUCH_VOLDWN → INT_MIN ≤ st.player_volume - 10 →
      st.player_volume ≤ INT_MAX →
      loop_body c st i =
        ⟨⟨st.adf_music_mp3_pos, max (st.player_volume - 10) 0⟩,
         [Call.audio_event_iface_listen,
          Call.audio_hal_set_volume (max (st.player_volume - 10) 0)], false⟩) ∧
    (∀ v ∈ volumes_set (control_loop c b.player_volume inputs).calls, 0 ≤ v ∧ v ≤ 100) ∧
    (0 ≤ (control_loop c b.player_volume inputs).player_volume ∧
      (control_loop c b.player_volume inputs).player_volume ≤ 100) ∧
    (∀ v ∈ volumes_set (app_main c b inputs), 0 ≤ v ∧ v ≤ 100) := by
  have hloop := control_loop_volume_range c inputs b.player_volume h0 h1
  refine ⟨?_, ?_, hloop.2, hloop.1, ?_⟩
  · intro hd hlo hhi
    unfold INT_MIN at hlo
    unfold INT_MAX at hhi
    have hnp : ¬ i.msg.data = LYRAT_TOUCH_PLAY := by
      rw [hd]
      decide
    have hns : ¬ i.msg.data = LYRAT_TOUCH_SET := by
      rw [hd]
      decide
    rw [loop_body_touch_tap c st i hdist hok htap, if_neg hnp, if_neg hns, if_pos hd,
      wrap_int_of_range _ (by omega) (by omega)]
    by_cases hgt : st.player_volume + 10 > 100
    · rw [if_pos hgt, min_eq_right (by omega)]
    · rw [if_neg hgt, min_eq_left (by omega)]
  · intro hd hlo hhi
    unfold INT_MIN at hlo
    unfold INT_MAX at hhi
    have hnp : ¬ i.msg.data = LYRAT_TOUCH_PLAY := by
      rw [hd]
      decide
    have hns : ¬ i.msg.data = LYRAT_TOUCH_SET := by
      rw [hd]
      decide
    have hnu : ¬ i.msg.data = LYRAT_TOUCH_VOLUP := by
      rw [hd]
      decide
    rw [loop_body_touch_tap c st i hdist hok htap, if_neg hnp, if_neg hns, if_neg hnu,
      if_pos hd, wrap_int_of_range _ (by omega) (by omega)]
    by_cases hlt : st.player_volume - 10 < 0
    · rw [if_pos hlt, max_eq_right (by omega)]
    · rw [if_neg hlt, max_eq_left (by omega)]
  · intro v hv
    unfold app_main at hv
    by_cases hp : b.mem_assert_passes = true
    · rw [if_pos hp] at hv
      have hhead : volumes_set setup_head = [] := rfl
      have htail : volumes_set (setup_tail c) = [] := rfl
      have hdown : volumes_set (if (control_loop c b.player_volume inputs).exited = true
          then teardown c else []) = [] := by
        split_ifs <;> rfl
      simp only [volumes_set, List.filterMap_append] at hv hhead htail hdown
      rw [hhead, htail, hdown, List.nil_append, List.nil_append, List.append_nil] at hv
      exact hloop.2 v hv
    · rw [if_neg hp] at hv
      have hhead : volumes_set setup_head = [] := rfl
      rw [hhead] at hv
      simp at hv

/-- Witness for C9: from volume 95 a Vol+ tap sets 100, and a run from volume 5 with two Vol-
taps and a Vol+ tap passes 0, 0 and 10. -/
theorem volume_taps_step_and_saturate_witness :
    loop_body sample_env ⟨0, 95⟩
      ⟨0, ⟨1, 7, 12, 4099⟩, audio_element_state_t.AEL_STATE_RUNNING, ⟨0, 0, 0, 0, 0⟩, 0⟩
      = ⟨⟨0, min (95 + 10) 100⟩,
         [Call.audio_event_iface_listen, Call.audio_hal_set_volume (min (95 + 10) 100)], false⟩ ∧
    volumes_set (control_loop sample_env 5
      [⟨0, ⟨1, 4, 12, 4099⟩, audio_element_state_t.AEL_STATE_RUNNING, ⟨0, 0, 0, 0, 0⟩, 0⟩,
       ⟨0, ⟨1, 4, 12, 4099⟩, audio_element_state_t.AEL_STATE_RUNNING, ⟨0, 0, 0, 0, 0⟩, 0⟩,
       ⟨0, ⟨1, 7, 12, 4099⟩, audio_element_state_t.AEL_STATE_RUNNING, ⟨0, 0, 0, 0, 0⟩, 0⟩]).calls
      = [0, 0, 10] :=
  ⟨(volume_taps_step_and_saturate sample_env ⟨0, 95⟩
      ⟨0, ⟨1, 7, 12, 4099⟩, audio_element_state_t.AEL_STATE_RUNNING, ⟨0, 0, 0, 0, 0⟩, 0⟩
      ⟨true, 5⟩
      [⟨0, ⟨1, 4, 12, 4099⟩, audio_element_state_t.AEL_STATE_RUNNING, ⟨0, 0, 0, 0, 0⟩, 0⟩,
       ⟨0, ⟨1, 4, 12, 4099⟩, audio_element_state_t.AEL_STATE_RUNNING, ⟨0, 0, 0, 0, 0⟩, 0⟩,
       ⟨0, ⟨1, 7, 12, 4099⟩, audio_element_state_t.AEL_STATE_RUNNING, ⟨0, 0, 0, 0, 0⟩, 0⟩]
      (by decide) (by decide) (by decide) (by decide) (by decide)).1
      (by decide) (by decide) (by decide),
   by decide⟩

/-! ## Reading the asset to its end -/

/-- C8: reading the asset to its end delivers every byte exactly once and in order. With a
fixed request length `L > 0` and calls starting at position 0 (each into a buffer that holds
`L` bytes), every call succeeds; the calls with index below `ceil(S / L)` return data, namely
a positive count `min(L, S - k L)` and the asset bytes from `k L` on; every later call returns
`AEL_IO_DONE`, delivers nothing and leaves buffer and position (`S`) alone; once `ceil(S / L)`
calls have been made the chunks put end to end are the whole asset. For any sequence of
well-formed requests with non-negative lengths, the chunks returned so far, put end to end,
are the first bytes of the asset up to the current position. (`AEL_IO_DONE` is taken to be a
value that is not a positive byte count.) -/
theorem read_to_end_delivers_asset (c : Env) (asset : List Byte) (L : Nat)
    (bufs : List (List Byte)) (reqs : List (List Byte × Int))
    (hD : c.AEL_IO_DONE ≤ 0) (hS : (asset.length : Int) ≤ INT_MAX) (hL : 0 < L)
    (hbufs : ∀ b ∈ bufs, L ≤ b.length)
    (hreqs : ∀ q ∈ reqs, 0 ≤ q.2 ∧ q.2 ≤ q.1.length) :
    (∃ rs, run_reads c asset 0 (bufs.map (fun b => (b, (L : Int)))) = some rs ∧
      rs.length = bufs.length ∧
      (∀ k r, rs[k]? = some r →
        if k < (asset.length + L - 1) / L then
          r.ret = min (L : Int) ((asset.length : Int) - ((k * L : Nat) : Int)) ∧
          0 < r.ret ∧ r.ret ≠ c.AEL_IO_DONE ∧
          chunk r = (asset.drop (k * L)).take r.ret.toNat ∧
          (chunk r).length = r.ret.toNat ∧
          r.pos = ((k * L : Nat) : Int) + r.ret
        else
          r.ret = c.AEL_IO_DONE ∧ r.pos = asset.length ∧ chunk r = [] ∧
          bufs[k]? = some r.buf) ∧
      ((asset.length + L - 1) / L ≤ bufs.length → (rs.map chunk).flatten = asset)) ∧
    (∃ rs, run_reads c asset 0 reqs = some rs ∧
      (rs.map chunk).flatten = asset.take (final_pos 0 rs).toNat ∧
      (rs.map chunk).flatten <+: asset) := by
  have hSm : (asset.length : Int) ≤ 2147483647 := hS
  constructor
  · have hz : ((min (0 * L) asset.length : Nat) : Int) = 0 := by simp
    obtain ⟨rs, hrun, hfin, hidx⟩ := fixed_reads c asset hS L bufs 0 hbufs
    rw [hz] at hrun hfin
    have hvalid : ∀ q ∈ bufs.map (fun b => (b, (L : Int))), 0 ≤ q.2 ∧ q.2 ≤ q.1.length := by
      intro q hq
      obtain ⟨b, hb, hqb⟩ := List.mem_map.mp hq
      have := hbufs b hb
      rw [← hqb]
      show (0 : Int) ≤ (L : Int) ∧ (L : Int) ≤ (b.length : Int)
      omega
    obtain ⟨rs2, hrun2, hlen2, -, -, hchunks⟩ :=
      run_reads_spec c asset hS (bufs.map (fun b => (b, (L : Int)))) 0 (le_refl _) (by omega)
        hvalid
    have hsame : rs2 = rs := by
      rw [hrun] at hrun2
      exact (Option.some.inj hrun2).symm
    subst hsame
    refine ⟨rs2, hrun, ?_, ?_, ?_⟩
    · rw [hlen2, List.length_map]
    · intro k r hk
      obtain ⟨buf, hbuf, hr⟩ := hidx k r hk
      rw [zero_add] at hr
      by_cases hlt : k < (asset.length + L - 1) / L
      · rw [if_pos hlt]
        have hkl : k * L < asset.length := (ceil_div_lt_iff k asset.length L hL).mp hlt
        have hmin : ((min (k * L) asset.length : Nat) : Int) = ((k * L : Nat) : Int) := by omega
        have hne : ¬ (((k * L : Nat) : Int) = (asset.length : Int)) := by omega
        rw [hmin] at hr
        have hr2 : r = ⟨min (L : Int) ((asset.length : Int) - ((k * L : Nat) : Int)),
            (asset.drop (k * L)).take
                (min (L : Int) ((asset.length : Int) - ((k * L : Nat) : Int))).toNat
              ++ buf.drop (min (L : Int) ((asset.length : Int) - ((k * L : Nat) : Int))).toNat,
            ((k * L : Nat) : Int)
              + min (L : Int) ((asset.length : Int) - ((k * L : Nat) : Int))⟩ := by
          rw [hr]
          unfold reference_reader
          rw [if_neg hne, Int.toNat_ofNat]
        have hn : (min (L : Int) ((asset.length : Int) - ((k * L : Nat) : Int))).toNat
            ≤ (asset.drop (k * L)).length := by
          rw [List.length_drop]
          omega
        rw [hr2]
        unfold chunk
        simp only
        rw [take_patch _ _ _ hn]
        refine ⟨trivial, by omega, by omega, rfl, ?_, trivial⟩
        rw [List.length_take]
        omega
      · rw [if_neg hlt]
        have hkl : ¬ k * L < asset.length := fun h =>
          hlt ((ceil_div_lt_iff k asset.length L hL).mpr h)
        have hmin : ((min (k * L) asset.length : Nat) : Int) = (asset.length : Int) := by omega
        rw [hmin] at hr
        have hr2 : r = ⟨c.AEL_IO_DONE, buf, (asset.length : Int)⟩ := by
          rw [hr]
          unfold reference_reader
          rw [if_pos rfl]
        rw [hr2]
        unfold chunk
        simp only
        have h0 : c.AEL_IO_DONE.toNat = 0 := by omega
        rw [h0, List.take_zero]
        exact ⟨trivial, trivial, rfl, hbuf⟩
    · intro hN
      have hkl : ¬ bufs.length * L < asset.length := fun h =>
        absurd ((ceil_div_lt_iff bufs.length asset.length L hL).mpr h) (by omega)
      rw [hchunks hD, hfin, zero_add]
      have hmin : min (bufs.length * L) asset.length = asset.length := by omega
      rw [hmin, Int.toNat_ofNat, Int.toNat_zero, List.drop_zero, Nat.sub_zero, List.take_length]
  · obtain ⟨rs, hrun, -, -, -, hchunks⟩ :=
      run_reads_spec c asset hS reqs 0 (le_refl _) (by omega) hreqs
    have hfl : (rs.map chunk).flatten = asset.take (final_pos 0 rs).toNat := by
      rw [hchunks hD, Int.toNat_zero, List.drop_zero, Nat.sub_zero]
    refine ⟨rs, hrun, hfl, ?_⟩
    rw [hfl]
    exact List.take_prefix _ _

/-- Witness for C8: a five-byte asset read with length 2 takes three data calls (2, 2 and 1
bytes), the fourth call reports `AEL_IO_DONE`, and the chunks make up the asset. -/
theorem read_to_end_delivers_asset_witness :
    run_reads sample_env [1, 2, 3, 4, 5] 0
      ([[0, 0], [0, 0], [0, 0], [0, 0]].map (fun b => (b, ((2 : Nat) : Int))))
      = some [⟨2, [1, 2], 2⟩, ⟨2, [3, 4], 4⟩, ⟨1, [5, 0], 5⟩, ⟨-2, [0, 0], 5⟩] ∧
    (([⟨2, [1, 2], 2⟩, ⟨2, [3, 4], 4⟩, ⟨1, [5, 0], 5⟩, ⟨-2, [0, 0], 5⟩] :
      List ReadResult).map chunk).flatten = [1, 2, 3, 4, 5] := by
  obtain ⟨rs, hrun, -, -, hall⟩ := (read_to_end_delivers_asset sample_env [1, 2, 3, 4, 5] 2
    [[0, 0], [0, 0], [0, 0], [0, 0]] [([0, 0, 0], 3)]
    (by decide) (by decide) (by decide) (by decide) (by decide)).1
  have hval : run_reads sample_env [1, 2, 3, 4, 5] 0
      ([[0, 0], [0, 0], [0, 0], [0, 0]].map (fun b => (b, ((2 : Nat) : Int))))
      = some [⟨2, [1, 2], 2⟩, ⟨2, [3, 4], 4⟩, ⟨1, [5, 0], 5⟩, ⟨-2, [0, 0], 5⟩] := by decide
  refine ⟨hval, ?_⟩
  rw [hval] at hrun
  rw [Option.some.inj hrun]
  exact hall (by decide)

end EspAdf
